import Mathlib

/-!
Verification of the Data-Science-Toolbox time-series notebooks.

The repository consists of two instructional notebooks:
* `src/unnamed/part_000` — generates a synthetic series
  `trend + seasonality + noise` (numpy `linspace`, `sin`, seeded
  `np.random.normal`) over a daily `pd.date_range`, then runs the
  Augmented Dickey-Fuller (ADF) test and prints a classification based
  on `result[1] < 0.05`.
* `src/Time Series/.ipynb_checkpoints/stationarity-differencing-checkpoint.ipynb`
  — builds a random walk `np.cumsum(np.random.normal(0, 1, 100))` after
  `np.random.seed(42)`, ADF-tests it, first-order differences it with
  `df['Value'].diff()` into a new column `Value_diff`, drops the leading
  NaN with `.dropna()`, and ADF-tests the differenced series.

Values are embedded as rationals (`ℚ`) standing in for Python floats;
the pandas NaN produced by `.diff()` at position 0 is embedded as
`Option.none`.  Library code that is not part of the repository (the
numpy Mersenne-Twister Gaussian sampler, the floating-point sine, and
the internals of `statsmodels.adfuller`) is modelled from the spec,
each such definition carrying a doc comment that says so.
-/

/-- pandas `Series.diff()`: for a series of length `N` return a series of
length `N` whose first entry is NaN (embedded as `none`) and whose entry
`i ≥ 1` is `input[i] - input[i-1]`. -/
def pandasDiff (xs : List ℚ) : List (Option ℚ) :=
  match xs with
  | [] => []
  | _ :: _ => none :: (List.zipWith (fun a b => b - a) xs xs.tail).map some

/-- pandas `Series.dropna()`: remove the missing entries, keeping order. -/
def dropna (xs : List (Option ℚ)) : List ℚ :=
  xs.filterMap id

/-- The differencer as the notebook uses it downstream:
`df['Value'].diff()` followed by `.dropna()`. -/
def diffDropped (xs : List ℚ) : List ℚ :=
  dropna (pandasDiff xs)

lemma dropna_map_some (xs : List ℚ) : dropna (xs.map some) = xs := by
  induction xs with
  | nil => rfl
  | cons a l ih =>
    simp only [List.map_cons, dropna, List.filterMap_cons, id]
    simp [dropna] at ih
    simp [ih]

lemma diffDropped_nil : diffDropped ([] : List ℚ) = [] := rfl

lemma diffDropped_singleton (a : ℚ) : diffDropped [a] = [] := rfl

lemma diffDropped_cons₂ (a b : ℚ) (l : List ℚ) :
    diffDropped (a :: b :: l) = (b - a) :: diffDropped (b :: l) := rfl

lemma diffDropped_length (xs : List ℚ) :
    (diffDropped xs).length = xs.length - 1 := by
  induction xs with
  | nil => rfl
  | cons a l ih =>
    cases l with
    | nil => rfl
    | cons b m =>
      rw [diffDropped_cons₂]
      simp only [List.length_cons] at ih ⊢
      omega

lemma diffDropped_getD (xs : List ℚ) :
    ∀ i : ℕ, i + 1 < xs.length →
      (diffDropped xs).getD i 0 = xs.getD (i + 1) 0 - xs.getD i 0 := by
  induction xs with
  | nil => intro i h; simp at h
  | cons a l ih =>
    cases l with
    | nil => intro i h; simp at h
    | cons b m =>
      intro i h
      cases i with
      | zero => simp [diffDropped_cons₂]
      | succ j =>
        rw [diffDropped_cons₂]
        simp only [List.getD_cons_succ]
        exact ih j (by simpa using h)

lemma pandasDiff_length (xs : List ℚ) : (pandasDiff xs).length = xs.length := by
  cases xs with
  | nil => rfl
  | cons a l =>
    simp [pandasDiff, List.length_zipWith]

/-- C1: for every input sequence of length `N ≥ 1`, pandas `diff()` keeps
the length `N` and puts the undefined value (`none`) first; after
`dropna()` the result has length `N − 1` and its `i`-th element is
`input[i+1] − input[i]`. -/
theorem diff_contract (xs : List ℚ) (h : 1 ≤ xs.length) :
    (pandasDiff xs).length = xs.length ∧
    (pandasDiff xs).head? = some none ∧
    (diffDropped xs).length = xs.length - 1 ∧
    ∀ i : ℕ, i < xs.length - 1 →
      (diffDropped xs).getD i 0 = xs.getD (i + 1) 0 - xs.getD i 0 := by
  refine ⟨pandasDiff_length xs, ?_, diffDropped_length xs, ?_⟩
  · cases xs with
    | nil => simp at h
    | cons a l => rfl
  · intro i hi
    exact diffDropped_getD xs i (by omega)

/-- Witness for C1 at the concrete input `[1, 3, 6]`. -/
theorem diff_contract_witness :
    1 ≤ ([1, 3, 6] : List ℚ).length ∧
    ((pandasDiff [1, 3, 6]).length = ([1, 3, 6] : List ℚ).length ∧
     (pandasDiff [1, 3, 6]).head? = some none ∧
     (diffDropped [1, 3, 6]).length = ([1, 3, 6] : List ℚ).length - 1 ∧
     ∀ i : ℕ, i < ([1, 3, 6] : List ℚ).length - 1 →
       (diffDropped [1, 3, 6]).getD i 0
         = ([1, 3, 6] : List ℚ).getD (i + 1) 0 - ([1, 3, 6] : List ℚ).getD i 0) :=
  ⟨by decide, diff_contract [1, 3, 6] (by decide)⟩

/-- The two classifications the notebooks can print: the first stands for
the line saying the series is likely stationary, the second for the line
saying it is likely non-stationary. -/
inductive Classification where
  | stationary : Classification
  | nonStationary : Classification
deriving DecidableEq, Repr

/-- The fixed threshold `0.05` hard-coded in all three classification
cells (`if result[1] < 0.05:`). -/
def pThreshold : ℚ := 5 / 100

/-- The notebooks' classification step: print "likely stationary" when
the p-value `result[1]` is strictly below the threshold, otherwise print
"likely non-stationary". -/
def classify (p : ℚ) : Classification :=
  if p < pThreshold then Classification.stationary
  else Classification.nonStationary

/-- C2: a sequence is classified stationary iff its p-value is strictly
below `0.05`, non-stationary iff the p-value is `≥ 0.05`, and exactly
one of the two classifications is always produced; `classify` takes no
threshold argument, so the threshold is fixed and non-configurable. -/
theorem classify_threshold (p : ℚ) :
    (classify p = Classification.stationary ↔ p < 5 / 100) ∧
    (classify p = Classification.nonStationary ↔ 5 / 100 ≤ p) ∧
    (classify p = Classification.stationary ∨
       classify p = Classification.nonStationary) ∧
    ¬ (classify p = Classification.stationary ∧
       classify p = Classification.nonStationary) ∧
    pThreshold = 5 / 100 := by
  unfold classify pThreshold
  by_cases h : p < 5 / 100
  · rw [if_pos h]
    exact ⟨by simp [h], by simp [not_le.mpr h], Or.inl rfl,
      fun hc => by simp at hc, rfl⟩
  · rw [if_neg h]
    exact ⟨by simp [h], by simp [not_lt.mp h], Or.inr rfl,
      fun hc => by simp at hc, rfl⟩

/-- Witness for C2 at the concrete p-values `1/100` and `1/2`. -/
theorem classify_threshold_witness :
    (classify (1 / 100) = Classification.stationary ↔
       (1 : ℚ) / 100 < 5 / 100) ∧
    (classify (1 / 2) = Classification.nonStationary ↔
       (5 : ℚ) / 100 ≤ 1 / 2) :=
  ⟨(classify_threshold (1 / 100)).1, (classify_threshold (1 / 2)).2.1⟩

/-- Modelled from the spec: `statsmodels.tsa.stattools.adfuller` is
library code outside the repository.  The spec says the test "fails if
fewer than a minimal number of observations are supplied (delegated to
the underlying test implementation)"; the minimal sample size is
modelled as this unspecified positive constant. -/
def adfMinObs : ℕ := 4

/-- Modelled from the spec: the p-value returned by the external ADF
implementation, "deterministic for a given input"; modelled as an
unspecified deterministic rational function of the sequence (its exact
value decides no claim in scope). -/
def adfPValue (xs : List ℚ) : ℚ :=
  1 / (1 + (diffDropped xs).foldl (fun acc d => acc + d ^ 2) 0)

/-- Modelled from the spec: the test statistic returned by the external
ADF implementation, likewise an unspecified deterministic function. -/
def adfStatistic (xs : List ℚ) : ℚ :=
  -(adfPValue xs)

/-- The message of the insufficient-sample error the external test
raises on too-short input. -/
def adfShortMsg : String := "sample size is too short"

/-- Modelled from the spec: `adfuller(xs)` either raises the
insufficient-sample error (when fewer than the minimal number of
observations are supplied) or returns the pair
(test statistic, p-value). -/
def adfuller (xs : List ℚ) : Except String (ℚ × ℚ) :=
  if xs.length < adfMinObs then Except.error adfShortMsg
  else Except.ok (adfStatistic xs, adfPValue xs)

/-- The stationarity-checking cell as a whole: run `adfuller`, then
classify on `result[1]`.  There is no `try`/`except` around the call, so
an error from `adfuller` propagates unchanged. -/
def checkStationarity (xs : List ℚ) : Except String Classification :=
  (adfuller xs).map (fun r => classify r.2)

/-- C8: the checker fails exactly on insufficient samples — on a
sequence shorter than the minimal sample size it surfaces the
underlying insufficient-sample error unchanged (no recovery logic), and
on any longer sequence it succeeds with a classification of the
returned p-value. -/
theorem checker_failure_mode (xs : List ℚ) :
    (xs.length < adfMinObs →
       checkStationarity xs = Except.error adfShortMsg) ∧
    (adfMinObs ≤ xs.length →
       checkStationarity xs = Except.ok (classify (adfPValue xs))) ∧
    ∀ e : String, checkStationarity xs = Except.error e →
      adfuller xs = Except.error e := by
  unfold checkStationarity adfuller
  by_cases h : xs.length < adfMinObs
  · rw [if_pos h]
    exact ⟨fun _ => rfl, fun hle => absurd hle (by omega), fun e he => by
      simpa [Except.map] using he⟩
  · rw [if_neg h]
    exact ⟨fun hlt => absurd hlt h, fun _ => rfl, fun e he => by
      simp [Except.map] at he⟩

/-- Witness for C8: a length-3 sequence errors, a length-4 sequence is
classified. -/
theorem checker_failure_mode_witness :
    (([1, 2, 3] : List ℚ).length < adfMinObs ∧
       checkStationarity [1, 2, 3] = Except.error adfShortMsg) ∧
    (adfMinObs ≤ ([1, 2, 3, 4] : List ℚ).length ∧
       checkStationarity [1, 2, 3, 4]
         = Except.ok (classify (adfPValue [1, 2, 3, 4]))) :=
  ⟨⟨by decide, (checker_failure_mode [1, 2, 3]).1 (by decide)⟩,
   ⟨by decide, (checker_failure_mode [1, 2, 3, 4]).2.1 (by decide)⟩⟩

/-- The notebook DataFrame before differencing: a date index paired with
the `Value` column (dates embedded as day offsets from the start date,
one per row, as produced by `pd.date_range(..., freq = D)`). -/
structure TSFrame where
  dates : List ℕ
  value : List ℚ
deriving Repr

/-- The notebook DataFrame after the cell
`df['Value_diff'] = df['Value'].diff()`: the original two columns plus
the new `Value_diff` column. -/
structure TSFrameDiff where
  dates : List ℕ
  value : List ℚ
  value_diff : List (Option ℚ)
deriving Repr

/-- The differencing cell: store `df['Value'].diff()` in the separate
column `Value_diff`, leaving `Date` and `Value` as they were. -/
def addDiffColumn (df : TSFrame) : TSFrameDiff :=
  { dates := df.dates, value := df.value, value_diff := pandasDiff df.value }

/-- C9: the original time-indexed sequence is immutable — differencing
writes into the separate `Value_diff` column and leaves every
(timestamp, value) pair of the original frame unchanged, and the
stationarity checker reads the unchanged `Value` column, so it returns
the same result before and after the differencing cell. -/
theorem frame_immutable (df : TSFrame) :
    (addDiffColumn df).dates = df.dates ∧
    (addDiffColumn df).value = df.value ∧
    (addDiffColumn df).dates.zip (addDiffColumn df).value
      = df.dates.zip df.value ∧
    (addDiffColumn df).value_diff = pandasDiff df.value ∧
    checkStationarity (addDiffColumn df).value = checkStationarity df.value :=
  ⟨rfl, rfl, rfl, rfl, rfl⟩

/-- numpy `cumsum` with an explicit running total: `np.cumsum(steps)[i]`
is `steps[0] + ... + steps[i]`. -/
def cumsumFrom (acc : ℚ) : List ℚ → List ℚ
  | [] => []
  | x :: rest => (acc + x) :: cumsumFrom (acc + x) rest

/-- numpy `np.cumsum(steps)`, used to build the random walk. -/
def cumsum (xs : List ℚ) : List ℚ :=
  cumsumFrom 0 xs

lemma diffDropped_cumsumFrom (steps : List ℚ) :
    ∀ acc : ℚ, diffDropped (cumsumFrom acc steps) = steps.tail := by
  induction steps with
  | nil => intro acc; rfl
  | cons x rest ih =>
    intro acc
    cases rest with
    | nil => rfl
    | cons y m =>
      show diffDropped
          ((acc + x) :: (acc + x + y) :: cumsumFrom (acc + x + y) m)
        = y :: m
      rw [diffDropped_cons₂]
      have hc : (acc + x + y) :: cumsumFrom (acc + x + y) m
          = cumsumFrom (acc + x) (y :: m) := rfl
      rw [hc, ih (acc + x)]
      have hy : acc + x + y - (acc + x) = y := by ring
      rw [hy]
      rfl

/-- C10: differencing inverts the cumulative sum — for every step
sequence of length at least 2, `diff` of `cumsum(steps)` followed by
`dropna` is exactly the tail `steps[1..N-1]` of the step sequence, so
the differenced random walk fed to the second ADF test is exactly the
tail of the original Gaussian step sequence. -/
theorem diff_cumsum_roundtrip (steps : List ℚ) (h : 2 ≤ steps.length) :
    diffDropped (cumsum steps) = steps.tail ∧
    diffDropped (cumsum steps) = steps.drop 1 := by
  have ht : diffDropped (cumsum steps) = steps.tail :=
    diffDropped_cumsumFrom steps 0
  exact ⟨ht, by rw [ht]; cases steps <;> rfl⟩

/-- Witness for C10 at the concrete steps `[1, 2, -5]`. -/
theorem diff_cumsum_roundtrip_witness :
    2 ≤ ([1, 2, -5] : List ℚ).length ∧
    (diffDropped (cumsum [1, 2, -5]) = ([1, 2, -5] : List ℚ).tail ∧
     diffDropped (cumsum [1, 2, -5]) = ([1, 2, -5] : List ℚ).drop 1) :=
  ⟨by decide, diff_cumsum_roundtrip [1, 2, -5] (by decide)⟩

/-- Modelled from the spec: the floating-point sine used by
`np.sin` is library code outside the repository; it is modelled as a
computable rational polynomial approximation (a truncated Taylor
series).  No claim in scope depends on analytic properties of sine. -/
def sinQ (x : ℚ) : ℚ :=
  x - x ^ 3 / 6 + x ^ 5 / 120 - x ^ 7 / 5040

/-- Modelled from the spec: a rational stand-in for the float constant
`np.pi`. -/
def piQ : ℚ := 355 / 113

/-- Modelled from the spec: one step of a pseudorandom state
transition, standing in for the numpy global Mersenne-Twister state
advanced by `np.random.normal`. -/
def lcgStep (s : ℕ) : ℕ :=
  (6364136223846793005 * s + 1442695040888963407) % 18446744073709551616

/-- Modelled from the spec: "noise is drawn from a fixed-variance
Gaussian using the seed for reproducibility"
(`np.random.seed(seed)` followed by `np.random.normal(0, 1, N)`); the
library sampler is outside the repository and is modelled as a
deterministic pseudorandom rational function of the seed and the
index. -/
def noiseAt (seed i : ℕ) : ℚ :=
  ((lcgStep^[i + 1] seed) % 2001 : ℕ) / 1000 - 1

/-- The trend component `np.linspace(0, tmax, N)`:
`trend[i] = tmax * i / (N - 1)`, linear from 0 to `tmax`. -/
def trendAt (N : ℕ) (tmax : ℚ) (i : ℕ) : ℚ :=
  tmax * i / ((N : ℚ) - 1)

/-- The seasonal component `amp * np.sin(np.linspace(0, span, N))`, a
sine wave whose angle sweeps `span` radians (`5 * sin(linspace(0, 3π,
100))` in the notebook, i.e. one and a half cycles). -/
def seasonalityAt (N : ℕ) (amp span : ℚ) (i : ℕ) : ℚ :=
  amp * sinQ (span * i / ((N : ℚ) - 1))

/-- One entry of `data = trend + seasonality + noise`. -/
def valueAt (seed N : ℕ) (tmax amp span : ℚ) (i : ℕ) : ℚ :=
  trendAt N tmax i + seasonalityAt N amp span i + noiseAt seed i

/-- The synthetic series generator of `src/unnamed/part_000`
(notebook instance: `seed = 42`, `N = 100`, `tmax = 10`, `amp = 5`,
`span = 3π`). -/
def generateSeries (seed N : ℕ) (tmax amp span : ℚ) : List ℚ :=
  (List.range N).map (valueAt seed N tmax amp span)

/-- The date index `pd.date_range(start, periods = N, freq = D)`:
`N` consecutive daily timestamps, embedded as day offsets from the
fixed start date `2020-01-01`. -/
def dateRange (start N : ℕ) : List ℕ :=
  (List.range N).map (fun i => start + i)

/-- C3: the generator is deterministic — two runs with identical
parameters (seed, count, trend maximum, seasonal amplitude and span)
produce identical value sequences, and likewise identical date
indexes. -/
theorem generator_deterministic (seed₁ seed₂ N₁ N₂ start₁ start₂ : ℕ)
    (tmax₁ tmax₂ amp₁ amp₂ span₁ span₂ : ℚ)
    (hseed : seed₁ = seed₂) (hN : N₁ = N₂) (hstart : start₁ = start₂)
    (htmax : tmax₁ = tmax₂) (hamp : amp₁ = amp₂) (hspan : span₁ = span₂) :
    generateSeries seed₁ N₁ tmax₁ amp₁ span₁
      = generateSeries seed₂ N₂ tmax₂ amp₂ span₂ ∧
    dateRange start₁ N₁ = dateRange start₂ N₂ := by
  rw [hseed, hN, hstart, htmax, hamp, hspan]
  exact ⟨rfl, rfl⟩

/-- Witness for C3 at the notebook parameters (`seed = 42`, `N = 100`
replaced by a small count, `tmax = 10`, `amp = 5`, `span = 3π`). -/
theorem generator_deterministic_witness :
    (42 = 42 ∧ 3 = 3 ∧ 0 = 0 ∧ (10 : ℚ) = 10 ∧ (5 : ℚ) = 5 ∧
       3 * piQ = 3 * piQ) ∧
    (generateSeries 42 3 10 5 (3 * piQ) = generateSeries 42 3 10 5 (3 * piQ) ∧
     dateRange 0 3 = dateRange 0 3) :=
  ⟨⟨rfl, rfl, rfl, rfl, rfl, rfl⟩,
   generator_deterministic 42 42 3 3 0 0 10 10 5 5 (3 * piQ) (3 * piQ)
     rfl rfl rfl rfl rfl rfl⟩

lemma generateSeries_length (seed N : ℕ) (tmax amp span : ℚ) :
    (generateSeries seed N tmax amp span).length = N := by
  simp [generateSeries]

lemma generateSeries_getD (seed N : ℕ) (tmax amp span : ℚ)
    (i : ℕ) (hi : i < N) :
    (generateSeries seed N tmax amp span).getD i 0
      = valueAt seed N tmax amp span i := by
  have hlen : i < (generateSeries seed N tmax amp span).length := by
    rw [generateSeries_length]; exact hi
  rw [List.getD_eq_getElem _ _ hlen]
  simp [generateSeries]

lemma dateRange_getD (start N i : ℕ) (hi : i < N) :
    (dateRange start N).getD i 0 = start + i := by
  have hlen : i < (dateRange start N).length := by simp [dateRange, hi]
  rw [List.getD_eq_getElem _ _ hlen]
  simp [dateRange]

/-- C4: for every count `N > 0` the generator produces exactly `N`
values with `value[i] = trend(i) + seasonality(i) + noise(i)`; the
trend is linear from `0` (at `i = 0`) to the configured maximum (at
`i = N − 1`, for `N ≥ 2`); and the date index holds `N` consecutive
daily timestamps starting from the fixed start date. -/
theorem generator_contract (seed N start : ℕ) (tmax amp span : ℚ)
    (h : 0 < N) :
    (generateSeries seed N tmax amp span).length = N ∧
    (∀ i : ℕ, i < N →
       (generateSeries seed N tmax amp span).getD i 0
         = trendAt N tmax i + seasonalityAt N amp span i + noiseAt seed i) ∧
    trendAt N tmax 0 = 0 ∧
    (2 ≤ N → trendAt N tmax (N - 1) = tmax) ∧
    (dateRange start N).length = N ∧
    (dateRange start N).getD 0 0 = start ∧
    (∀ i : ℕ, i < N → (dateRange start N).getD i 0 = start + i) := by
  refine ⟨generateSeries_length seed N tmax amp span, ?_, ?_, ?_, ?_, ?_, ?_⟩
  · intro i hi
    rw [generateSeries_getD seed N tmax amp span i hi]
    rfl
  · simp [trendAt]
  · intro h2
    unfold trendAt
    have hcast : ((N - 1 : ℕ) : ℚ) = (N : ℚ) - 1 := by
      push_cast [Nat.cast_sub (by omega : 1 ≤ N)]
      ring
    rw [hcast]
    have hne : (N : ℚ) - 1 ≠ 0 := by
      have : (2 : ℚ) ≤ (N : ℚ) := by exact_mod_cast h2
      linarith
    field_simp
  · simp [dateRange]
  · simpa using dateRange_getD start N 0 h
  · intro i hi
    exact dateRange_getD start N i hi

/-- Witness for C4 at `seed = 42`, `N = 2`, start date `0`, trend
maximum `10`, amplitude `5`, span `3π`. -/
theorem generator_contract_witness :
    0 < 2 ∧
    ((generateSeries 42 2 10 5 (3 * piQ)).length = 2 ∧
     (∀ i : ℕ, i < 2 →
        (generateSeries 42 2 10 5 (3 * piQ)).getD i 0
          = trendAt 2 10 i + seasonalityAt 2 5 (3 * piQ) i + noiseAt 42 i) ∧
     trendAt 2 10 0 = 0 ∧
     (2 ≤ 2 → trendAt 2 10 (2 - 1) = 10) ∧
     (dateRange 0 2).length = 2 ∧
     (dateRange 0 2).getD 0 0 = 0 ∧
     (∀ i : ℕ, i < 2 → (dateRange 0 2).getD i 0 = 0 + i)) :=
  ⟨by decide, generator_contract 42 2 0 10 5 (3 * piQ) (by decide)⟩

/-- Modelled from the spec: "No error conditions (fails only on invalid
N ≤ 0)".  The notebook hard-codes `N = 100`; validity of the count is
delegated to the libraries and modelled per this sentence, with failure
embedded as `none`. -/
def generateChecked (seed : ℕ) (N : ℤ) (tmax amp span : ℚ) :
    Option (List ℚ) :=
  if N ≤ 0 then none
  else some (generateSeries seed N.toNat tmax amp span)

/-- C7: the generator has no error conditions for a valid count — for
every `N > 0` it succeeds and returns the series, and it fails exactly
when `N ≤ 0`. -/
theorem generator_no_error (seed : ℕ) (N : ℤ) (tmax amp span : ℚ) :
    (0 < N → generateChecked seed N tmax amp span
       = some (generateSeries seed N.toNat tmax amp span)) ∧
    (N ≤ 0 → generateChecked seed N tmax amp span = none) ∧
    ((generateChecked seed N tmax amp span).isSome = true ↔ 0 < N) := by
  unfold generateChecked
  by_cases h : N ≤ 0
  · rw [if_pos h]
    refine ⟨fun h0 => absurd h0 (by omega), fun _ => rfl, ?_⟩
    exact ⟨fun hs => by simp at hs, fun h0 => absurd h0 (by omega)⟩
  · rw [if_neg h]
    refine ⟨fun _ => rfl, fun h0 => absurd h0 h, ?_⟩
    exact ⟨fun _ => by omega, fun _ => rfl⟩

/-- Witness for C7 at `N = 3` (success) and `N = -1` (failure). -/
theorem generator_no_error_witness :
    ((0 : ℤ) < 3 ∧
       generateChecked 42 3 10 5 (3 * piQ)
         = some (generateSeries 42 (3 : ℤ).toNat 10 5 (3 * piQ))) ∧
    ((-1 : ℤ) ≤ 0 ∧ generateChecked 42 (-1) 10 5 (3 * piQ) = none) :=
  ⟨⟨by decide, (generator_no_error 42 3 10 5 (3 * piQ)).1 (by decide)⟩,
   ⟨by decide, (generator_no_error 42 (-1) 10 5 (3 * piQ)).2.1 (by decide)⟩⟩

lemma diffDropped_replicate (n : ℕ) (a : ℚ) :
    diffDropped (List.replicate (n + 1) a) = List.replicate n 0 := by
  induction n with
  | zero => rfl
  | succ m ih =>
    show diffDropped (a :: a :: List.replicate m a) = 0 :: List.replicate m 0
    rw [diffDropped_cons₂, sub_self]
    have hr : diffDropped (a :: List.replicate m a) = List.replicate m 0 := ih
    rw [hr]

lemma ramp_getD (n i : ℕ) (a b : ℚ) (hi : i < n) :
    ((List.range n).map (fun j : ℕ => a + b * j)).getD i 0 = a + b * i := by
  have hlen : i < ((List.range n).map (fun j : ℕ => a + b * j)).length := by
    simp [hi]
  rw [List.getD_eq_getElem _ _ hlen]
  simp

/-- C5: the differencer acts linearly — differencing a constant
sequence of length `n ≥ 2` yields the all-zero sequence of length
`n − 1`, and differencing the linear ramp `input[i] = a + b·i` of
length `n ≥ 2` yields the constant sequence with every element `b`. -/
theorem diff_linear_operator (n : ℕ) (a b : ℚ) (h : 2 ≤ n) :
    diffDropped (List.replicate n a) = List.replicate (n - 1) 0 ∧
    diffDropped ((List.range n).map (fun i : ℕ => a + b * i))
      = List.replicate (n - 1) b := by
  constructor
  · cases n with
    | zero => omega
    | succ m => simpa using diffDropped_replicate m a
  · apply List.ext_getElem
    · rw [diffDropped_length]
      simp
    · intro i h₁ h₂
      rw [diffDropped_length, List.length_map, List.length_range] at h₁
      have hd1 :
          i < (diffDropped ((List.range n).map
            (fun i : ℕ => a + b * i))).length := by
        rw [diffDropped_length]
        simpa using h₁
      rw [← List.getD_eq_getElem _ 0 hd1, ← List.getD_eq_getElem _ 0 h₂]
      rw [diffDropped_getD _ i (by simp; omega)]
      rw [ramp_getD n (i + 1) a b (by omega), ramp_getD n i a b (by omega)]
      rw [List.getD_eq_getElem _ _ h₂, List.getElem_replicate]
      push_cast
      ring

/-- Witness for C5 at `n = 3`, `a = 7`, `b = 2`. -/
theorem diff_linear_operator_witness :
    2 ≤ 3 ∧
    (diffDropped (List.replicate 3 (7 : ℚ)) = List.replicate (3 - 1) 0 ∧
     diffDropped ((List.range 3).map (fun i : ℕ => (7 : ℚ) + 2 * i))
       = List.replicate (3 - 1) 2) :=
  ⟨by decide, diff_linear_operator 3 7 2 (by decide)⟩
